import Mathlib

/-!
Verification of the skills-hub context pipeline and tool sandbox.

This file shallowly embeds the Python sources:
  * `scripts/models.py` (pydantic data model: `ContextChunk`, `CompressedContext`,
    `TokenBudget`, enums),
  * `archive/scripts/context_manager.py` (`TokenCounter`, `ContextGatherer._gather_files`,
    `ContextPrioritizer`, `ContextCompressor`, `ContextManager.add_error_context`,
    `ContextCheckpoint`),
  * `scripts/tool_factory.py` (the sandboxed `read_file` / `write_file` /
    `list_directory` tools),
and proves / refutes the frozen claims about them.

Modelling conventions:
  * Text is `List Char` (`Str`), matching Python `str` as a sequence of code points.
  * `TokenCounter` is modelled on its deterministic fallback path
    (`len(text) // 4`, truncation to `max_tokens * 4` characters), which the code
    uses when the external `tiktoken` backend is unavailable and which the spec
    names as the degraded mode all callers must tolerate.  The md5-keyed memo
    cache is behaviourally transparent (same pure function) and is not modelled.
  * `uuid7()` default ids and timestamps are passed as explicit parameters.
  * `int(max_tokens * 0.3)` is modelled as `max_tokens * 3 / 10`; for the integer
    magnitudes reachable here the float product rounds to the same floor.
  * Filesystem state for the tool factory is an association list from resolved
    absolute paths (component lists) to entries; `Path.resolve` is modelled
    lexically (no symlinks).
-/

/-- Python `str` as a sequence of code points. -/
abbrev Str := List Char

/-- `TaskType` enum from `models.py`. -/
inductive TaskType where
  | IMPLEMENT | ANALYZE | GENERATE | REFACTOR | DEBUG | TEST
  | DEPLOY | AUTOMATE | SCAFFOLD | MIGRATE | OPTIMIZE | UNKNOWN
deriving DecidableEq

/-- `ContextPriority` enum from `models.py`. -/
inductive ContextPriority where
  | CRITICAL | HIGH | MEDIUM | LOW | MINIMAL
deriving DecidableEq

/-- The closed `chunk_type` literal set of `ContextChunk` in `models.py`
(`structure'` stands for the Python literal `"structure"`, a Lean keyword). -/
inductive ChunkType where
  | file | snippet | error | structure' | dependency | history | metadata
deriving DecidableEq

/-- JSON values, for the pydantic serialization used by `ContextCheckpoint`
(`model_dump_json` / `model_validate_json`).  Numbers are exact rationals;
pydantic's float serialization is shortest-repr and round-trips exactly. -/
inductive J where
  | null
  | bool (b : Bool)
  | num (q : ℚ)
  | str (s : Str)
  | arr (xs : List J)
  | obj (fields : List (Str × J))

namespace TokenCounter

/-- `TokenCounter.count` on the character-estimation fallback path:
`len(text) // 4` (`0` for the empty string, which `len // 4` also gives). -/
def count (text : Str) : Nat := text.length / 4

/-- `TokenCounter.truncate_to_tokens` on the fallback path: return `text`
unchanged if it already fits, else keep the first `max_tokens * 4` characters. -/
def truncate_to_tokens (text : Str) (max_tokens : Nat) : Str :=
  if count text ≤ max_tokens then text else text.take (max_tokens * 4)

end TokenCounter

/-- Inner loop of the whitespace normalizer: `runlen` pending newlines have been
read; a maximal run of `n ≥ 4` newlines is emitted as exactly 3 (re.sub
`\n{4,}` → three newlines), shorter runs are emitted unchanged. -/
def stripWsGo : Nat → List Char → List Char
  | runlen, [] => List.replicate (min runlen 3) '\n'
  | runlen, c :: cs =>
    if c = '\n' then stripWsGo (runlen + 1) cs
    else List.replicate (min runlen 3) '\n' ++ c :: stripWsGo 0 cs

/-- `ContextChunk.strip_excessive_whitespace` validator from `models.py`:
`re.sub(r'\n{4,}', '\n\n\n', v)`. -/
def strip_excessive_whitespace (v : Str) : Str := stripWsGo 0 v

/-- `ContextChunk` from `models.py`.  `metadata` is the open key-value bag
(`dict[str, Any]`), modelled as a JSON association list. -/
structure ContextChunk where
  chunk_id : Str
  content : Str
  source : Str
  chunk_type : ChunkType
  priority : ContextPriority
  token_count : Nat
  metadata : List (Str × J)

/-- Constructing a `ContextChunk` through pydantic: the
`strip_excessive_whitespace` field validator rewrites `content`; every other
field is stored as passed.  (The `min_length=1` constraint on `content` raises
for empty content; all construction sites in the sources pass non-empty text.) -/
def mkContextChunk (chunk_id content source : Str) (chunk_type : ChunkType)
    (priority : ContextPriority) (token_count : Nat)
    (metadata : List (Str × J)) : ContextChunk :=
  { chunk_id := chunk_id
    content := strip_excessive_whitespace content
    source := source
    chunk_type := chunk_type
    priority := priority
    token_count := token_count
    metadata := metadata }

/-- `TokenBudget` from `models.py` (defaults as in the source). -/
structure TokenBudget where
  input_max : Nat := 8000
  output_max : Nat := 4000
  input_used : Nat := 0
  output_used : Nat := 0
  reserved : Nat := 500

/-- `TokenBudget.input_available`: `max(0, input_max - input_used - reserved)`;
truncated `Nat` subtraction is exactly that clamped value. -/
def TokenBudget.input_available (b : TokenBudget) : Nat :=
  b.input_max - b.input_used - b.reserved

/-- `CompressedContext` from `models.py`.  `compression_ratio` is a Python
float; it is modelled as an exact rational. -/
structure CompressedContext where
  chunks : List ContextChunk
  total_tokens : Nat
  compression_ratio : ℚ
  excluded_sources : List Str
  summary : Option Str

/-- Split a character list at every occurrence of `sep`, Python `str.split(sep)`
semantics: `"".split` gives `[""]`, separators at the ends give empty pieces. -/
def splitChar (sep : Char) : Str → List Str
  | [] => [[]]
  | c :: cs =>
    let r := splitChar sep cs
    if c = sep then [] :: r
    else
      match r with
      | h :: t => (c :: h) :: t
      | [] => [[c]]

/-- Python ASCII-range `str.strip()` whitespace test (lines being stripped come
from a `split("\n")`, so they contain no newline anyway). -/
def isPyWs (c : Char) : Bool :=
  c = ' ' || c = '\t' || c = '\n' || c = '\r' || c = '\x0b' || c = '\x0c'

/-- Python `str.strip()`: drop whitespace from both ends. -/
def stripStr (s : Str) : Str :=
  ((s.dropWhile isPyWs).reverse.dropWhile isPyWs).reverse

/-- Lowercasing a string, Python `str.lower()` (ASCII-faithful). -/
def toLowerStr (s : Str) : Str := s.map Char.toLower

/-- Python substring test `needle in hay`. -/
def isSub (needle hay : Str) : Bool := decide (needle <:+: hay)

/-- Final path component, `pathlib.PurePath.name` of a relative path string. -/
def lastComponent (p : Str) : Str :=
  ((splitChar '/' p).filter (fun c => !c.isEmpty)).getLastD p

/-- `pathlib.PurePath.suffix`: `name[i:]` for `i` the last index of `'.'` when
`0 < i < len(name) - 1`, else the empty string. -/
def pathSuffix (p : Str) : Str :=
  let base := lastComponent p
  let r := base.reverse
  let k := (r.takeWhile (fun c => c ≠ '.')).length
  if k < r.length ∧ 0 < k ∧ k ≤ r.length - 2 then
    '.' :: (r.takeWhile (fun c => c ≠ '.')).reverse
  else []

namespace ContextGatherer

/-- `ContextGatherer.CODE_EXTENSIONS`. -/
def CODE_EXTENSIONS : List Str :=
  [".py".data, ".js".data, ".ts".data, ".jsx".data, ".tsx".data, ".go".data,
   ".rs".data, ".java".data, ".c".data, ".cpp".data, ".h".data, ".hpp".data,
   ".cs".data, ".rb".data, ".php".data, ".swift".data, ".kt".data,
   ".scala".data, ".sh".data, ".bash".data, ".ps1".data, ".sql".data]

/-- `ContextGatherer.CONFIG_EXTENSIONS`. -/
def CONFIG_EXTENSIONS : List Str :=
  [".json".data, ".yaml".data, ".yml".data, ".toml".data, ".xml".data,
   ".ini".data, ".env".data, ".config".data, ".cfg".data]

/-- `ContextGatherer._detect_language`: extension → language tag, default
`"text"`. -/
def detect_language (path : Str) : Str :=
  (List.lookup (toLowerStr (pathSuffix path))
    [(".py".data, "python".data), (".js".data, "javascript".data),
     (".ts".data, "typescript".data), (".jsx".data, "jsx".data),
     (".tsx".data, "tsx".data), (".go".data, "go".data),
     (".rs".data, "rust".data), (".java".data, "java".data),
     (".c".data, "c".data), (".cpp".data, "cpp".data),
     (".h".data, "c".data), (".hpp".data, "cpp".data),
     (".cs".data, "csharp".data), (".rb".data, "ruby".data),
     (".php".data, "php".data), (".swift".data, "swift".data),
     (".kt".data, "kotlin".data), (".scala".data, "scala".data),
     (".sh".data, "bash".data), (".bash".data, "bash".data),
     (".ps1".data, "powershell".data), (".sql".data, "sql".data),
     (".json".data, "json".data), (".yaml".data, "yaml".data),
     (".yml".data, "yaml".data), (".toml".data, "toml".data),
     (".xml".data, "xml".data), (".md".data, "markdown".data)]).getD "text".data

/-- UTF-8 byte length of a string, Python `len(content.encode())`. -/
def byteLen (s : Str) : Nat := (s.map Char.utf8Size).sum

/-- One iteration of the file loop in `ContextGatherer._gather_files`
(lines 326-357 of `context_manager.py`): priority from the focus test
(`relative_path.endswith(f) or f in relative_path`), chunk type from the
extension, `token_count` computed from the raw file content, after which the
pydantic validator normalizes the stored content.  The fresh `uuid7` chunk id
is an explicit parameter. -/
def gatherFileChunk (fresh_id relative_path content : Str)
    (focus_files : List Str) : ContextChunk :=
  let is_focus := focus_files.any
    (fun f => f.isSuffixOf relative_path || isSub f relative_path)
  let priority :=
    if is_focus then ContextPriority.CRITICAL else ContextPriority.MEDIUM
  let ext := toLowerStr (pathSuffix relative_path)
  let chunk_type :=
    if CODE_EXTENSIONS.contains ext then ChunkType.file
    else if CONFIG_EXTENSIONS.contains ext then ChunkType.metadata
    else ChunkType.file
  mkContextChunk fresh_id content relative_path chunk_type priority
    ( TokenCounter.count content)
    [("language".data, J.str (detect_language relative_path)),
     ("size_bytes".data, J.num (byteLen content))]

end ContextGatherer

namespace ContextPrioritizer

/-- `ContextPrioritizer.PRIORITY_SCORES` (the `.get(priority, 500)` default is
unreachable: the enum is closed). -/
def PRIORITY_SCORES : ContextPriority → Nat
  | .CRITICAL => 1000
  | .HIGH => 800
  | .MEDIUM => 500
  | .LOW => 200
  | .MINIMAL => 50

/-- `ContextPrioritizer.TASK_PATTERNS` with the `.get(task_type, [])` default. -/
def TASK_PATTERNS : TaskType → List Str
  | .IMPLEMENT =>
      ["model".data, "service".data, "handler".data, "controller".data,
       "route".data]
  | .TEST => ["test".data, "spec".data, "mock".data, "fixture".data]
  | .DEBUG => ["error".data, "exception".data, "log".data]
  | .DEPLOY =>
      ["docker".data, "kubernetes".data, "ci".data, "cd".data,
       "pipeline".data, "deploy".data]
  | .REFACTOR => ["util".data, "helper".data, "common".data, "shared".data]
  | .OPTIMIZE =>
      ["performance".data, "cache".data, "index".data, "query".data]
  | _ => []

/-- `ContextPrioritizer._score_chunk`.  `keywords` are lowercased in
`__init__`; the task-pattern loop breaks after the first match; each keyword
adds 150 on a source match, `elif` 50 on a content match. -/
def score_chunk (task_type : TaskType) (keywords : List Str)
    (chunk : ContextChunk) : Nat :=
  let source_lower := toLowerStr chunk.source
  let content_lower := toLowerStr chunk.content
  let kws := keywords.map toLowerStr
  let base := PRIORITY_SCORES chunk.priority
  let s1 :=
    if (TASK_PATTERNS task_type).any (fun p => isSub p source_lower)
    then base + 100 else base
  let s2 := kws.foldl
    (fun acc kw =>
      if isSub kw source_lower then acc + 150
      else if isSub kw content_lower then acc + 50
      else acc) s1
  let s3 :=
    if task_type = TaskType.DEBUG ∧
        (isSub "error".data content_lower ∨ isSub "exception".data content_lower)
    then s2 + 200 else s2
  if task_type = TaskType.TEST ∧
      (isSub "test".data source_lower ∨ isSub "spec".data source_lower)
  then s3 + 150 else s3

/-- `ContextPrioritizer.prioritize`: stable sort by score, highest first
(Python `list.sort(key=..., reverse=True)` is a stable descending sort). -/
def prioritize (task_type : TaskType) (keywords : List Str)
    (chunks : List ContextChunk) : List ContextChunk :=
  chunks.mergeSort
    (fun a b =>
      decide (score_chunk task_type keywords b ≤ score_chunk task_type keywords a))

end ContextPrioritizer

namespace ContextCompressor

/-- Import-line test from `ContextCompressor._smart_truncate_code`: after
stripping, the line starts with `"import "`, `"from "`, `"require("`, or starts
with `"const "` and contains `"require"` (Python `and` binds tighter than the
`or` chain there). -/
def isImportLine (line : Str) : Bool :=
  let stripped := stripStr line
  "import ".data.isPrefixOf stripped ||
  "from ".data.isPrefixOf stripped ||
  "require(".data.isPrefixOf stripped ||
  ("const ".data.isPrefixOf stripped && isSub "require".data stripped)

/-- The separator `_smart_truncate_code` splices between the import section and
the truncated body. -/
def truncSep : Str := "\n\n# ... (truncated) ...\n\n".data

/-- `ContextCompressor._smart_truncate_code`: split lines into import-like and
other lines, give the imports 30% of the budget (`int(max_tokens * 0.3)`),
token-truncate both sections, and join them with `truncSep`. -/
def smart_truncate_code (content : Str) (max_tokens : Nat) : Str :=
  let lines := splitChar '\n' content
  let imports := lines.filter isImportLine
  let code := lines.filter (fun l => !isImportLine l)
  let import_budget := max_tokens * 3 / 10
  let import_text0 := List.intercalate "\n".data imports
  let import_text :=
    if TokenCounter.count import_text0 > import_budget
    then TokenCounter.truncate_to_tokens import_text0 import_budget
    else import_text0
  let code_budget := max_tokens - TokenCounter.count import_text
  let code_text :=
    TokenCounter.truncate_to_tokens (List.intercalate "\n".data code) code_budget
  import_text ++ truncSep ++ code_text

/-- Python `{**chunk.metadata, "truncated": True}`: update the key in place if
present, else append it. -/
def dictInsert (m : List (Str × J)) (k : Str) (v : J) : List (Str × J) :=
  if m.any (fun kv => kv.1 == k)
  then m.map (fun kv => if kv.1 == k then (kv.1, v) else kv)
  else m ++ [(k, v)]

/-- `ContextCompressor._truncate_chunk`: `None` when fewer than 50 tokens of
budget remain; otherwise smart truncation for `file` chunks, plain token
truncation for the rest, with `token_count` recomputed from the truncated text
(the pydantic validator then normalizes the stored content). -/
def truncate_chunk (chunk : ContextChunk) (max_tokens : Nat) :
    Option ContextChunk :=
  if max_tokens < 50 then none
  else
    let content :=
      if chunk.chunk_type = ChunkType.file
      then smart_truncate_code chunk.content max_tokens
      else TokenCounter.truncate_to_tokens chunk.content max_tokens
    some (mkContextChunk chunk.chunk_id content chunk.source chunk.chunk_type
      chunk.priority ( TokenCounter.count content)
      (dictInsert chunk.metadata "truncated".data (J.bool true)))

/-- Keep the first occurrence of each element (Python `set` iteration order is
unspecified; the summary text is never asserted on, only round-tripped). -/
def dedupFirstAux (seen : List Str) : List Str → List Str
  | [] => []
  | s :: rest =>
    if seen.contains s then dedupFirstAux seen rest
    else s :: dedupFirstAux (seen ++ [s]) rest

/-- `ChunkType` value string, as in the `Literal` type of `models.py`. -/
def chunkTypeStr : ChunkType → Str
  | .file => "file".data
  | .snippet => "snippet".data
  | .error => "error".data
  | .structure' => "structure".data
  | .dependency => "dependency".data
  | .history => "history".data
  | .metadata => "metadata".data

/-- `ContextCompressor._generate_summary`. -/
def generate_summary (chunks : List ContextChunk) : Str :=
  let sources := chunks.map (fun c => c.source)
  let types := dedupFirstAux [] (chunks.map (fun c => chunkTypeStr c.chunk_type))
  "Context includes ".data ++ (toString chunks.length).data ++
  " chunks from: ".data ++ List.intercalate ", ".data (sources.take 5) ++
  (if sources.length > 5 then "...".data else []) ++
  ". Types: ".data ++ List.intercalate ", ".data types ++ ".".data

/-- Loop state of `ContextCompressor.compress`. -/
structure CompressState where
  included : List ContextChunk
  excluded : List Str
  total : Nat

/-- One iteration of the `for chunk in chunks` loop in
`ContextCompressor.compress`: include whole when it fits; else, while budget
remains, truncate (the source is appended with the `" (truncated)"` suffix
whether or not the truncation survived the 50-token floor); else exclude. -/
def compressStep (available : Nat) (st : CompressState) (chunk : ContextChunk) :
    CompressState :=
  if st.total + chunk.token_count ≤ available then
    { st with included := st.included ++ [chunk],
              total := st.total + chunk.token_count }
  else if st.total < available then
    let remaining := available - st.total
    match truncate_chunk chunk remaining with
    | some t =>
      { included := st.included ++ [t],
        excluded := st.excluded ++ [chunk.source ++ " (truncated)".data],
        total := st.total + t.token_count }
    | none =>
      { st with excluded := st.excluded ++ [chunk.source ++ " (truncated)".data] }
  else
    { st with excluded := st.excluded ++ [chunk.source] }

/-- `ContextCompressor.compress`. -/
def compress (chunks : List ContextChunk) (budget : TokenBudget) :
    CompressedContext :=
  let available := budget.input_available
  let st := chunks.foldl (compressStep available) ⟨[], [], 0⟩
  let original_tokens := (chunks.map (fun c => c.token_count)).sum
  { chunks := st.included
    total_tokens := st.total
    compression_ratio :=
      if st.total > 0 then (original_tokens : ℚ) / (st.total : ℚ) else 1
    excluded_sources := st.excluded
    summary :=
      if st.included.isEmpty then none else some (generate_summary st.included) }

end ContextCompressor

namespace ContextManager

/-- `ContextManager.add_error_context`: build one CRITICAL `error` chunk from
the message (joined with the stack trace when that is truthy, i.e. present and
non-empty), prepend it, add its token count to the total, and carry every other
field over into a fresh `CompressedContext`.  The `uuid7` chunk id is an
explicit parameter. -/
def add_error_context (fresh_id : Str) (compressed : CompressedContext)
    (error_message : Str) (stack_trace : Option Str) : CompressedContext :=
  let content :=
    match stack_trace with
    | some st =>
      if st.isEmpty then error_message
      else error_message ++ "\n\nStack trace:\n".data ++ st
    | none => error_message
  let error_chunk := mkContextChunk fresh_id content "error_context".data
    ChunkType.error ContextPriority.CRITICAL ( TokenCounter.count content) []
  { chunks := error_chunk :: compressed.chunks
    total_tokens := compressed.total_tokens + error_chunk.token_count
    compression_ratio := CompressedContext.compression_ratio compressed
    excluded_sources := CompressedContext.excluded_sources compressed
    summary := compressed.summary }

end ContextManager

namespace ContextCheckpoint

/-- `ContextPriority` value string, as in the enum of `models.py`. -/
def priorityStr : ContextPriority → Str
  | .CRITICAL => "critical".data
  | .HIGH => "high".data
  | .MEDIUM => "medium".data
  | .LOW => "low".data
  | .MINIMAL => "minimal".data

/-- Inverse of `priorityStr`, as pydantic validates the enum value string. -/
def priorityOfStr (s : Str) : Option ContextPriority :=
  if s = "critical".data then some .CRITICAL
  else if s = "high".data then some .HIGH
  else if s = "medium".data then some .MEDIUM
  else if s = "low".data then some .LOW
  else if s = "minimal".data then some .MINIMAL
  else none

/-- Inverse of `ContextCompressor.chunkTypeStr`, as pydantic validates the
`Literal` string. -/
def chunkTypeOfStr (s : Str) : Option ChunkType :=
  if s = "file".data then some .file
  else if s = "snippet".data then some .snippet
  else if s = "error".data then some .error
  else if s = "structure".data then some .structure'
  else if s = "dependency".data then some .dependency
  else if s = "history".data then some .history
  else if s = "metadata".data then some .metadata
  else none

/-- Extract a JSON string. -/
def jStr? : J → Option Str
  | .str s => some s
  | _ => none

/-- Extract a non-negative integer (pydantic `int` field with `ge=0`). -/
def jNat? : J → Option Nat
  | .num q => if q.den = 1 ∧ 0 ≤ q.num then some q.num.toNat else none
  | _ => none

/-- Extract a JSON array. -/
def jArr? : J → Option (List J)
  | .arr xs => some xs
  | _ => none

/-- `model_dump_json` of one `ContextChunk`: fields in declaration order,
enums as their value strings. -/
def serializeChunk (c : ContextChunk) : J :=
  .obj [("chunk_id".data, .str c.chunk_id),
        ("content".data, .str c.content),
        ("source".data, .str c.source),
        ("chunk_type".data, .str ( ContextCompressor.chunkTypeStr c.chunk_type)),
        ("priority".data, .str (priorityStr c.priority)),
        ("token_count".data, .num c.token_count),
        ("metadata".data, .obj c.metadata)]

/-- `model_validate_json` of one `ContextChunk`: look each field up by name,
re-run the field constraints (`content` non-empty via `min_length=1`, the
`strip_excessive_whitespace` validator, `token_count ≥ 0`). -/
def parseChunk : J → Option ContextChunk
  | .obj fields =>
    match fields.lookup "chunk_id".data, fields.lookup "content".data,
          fields.lookup "source".data, fields.lookup "chunk_type".data,
          fields.lookup "priority".data, fields.lookup "token_count".data,
          fields.lookup "metadata".data with
    | some (.str cid), some (.str content0), some (.str src),
      some (.str tys), some (.str prs), some tcj, some (.obj md) =>
      if content0.isEmpty then none
      else
        match chunkTypeOfStr tys, priorityOfStr prs, jNat? tcj with
        | some ty, some pr, some tc =>
          some { chunk_id := cid
                 content := strip_excessive_whitespace content0
                 source := src
                 chunk_type := ty
                 priority := pr
                 token_count := tc
                 metadata := md }
        | _, _, _ => none
    | _, _, _, _, _, _, _ => none
  | _ => none

/-- Parse a JSON array of chunks elementwise. -/
def parseChunkList : List J → Option (List ContextChunk)
  | [] => some []
  | j :: js =>
    match parseChunk j, parseChunkList js with
    | some c, some cs => some (c :: cs)
    | _, _ => none

/-- Parse a JSON array of strings elementwise. -/
def parseStrList : List J → Option (List Str)
  | [] => some []
  | j :: js =>
    match jStr? j, parseStrList js with
    | some s, some ss => some (s :: ss)
    | _, _ => none

/-- `summary: str | None` as JSON. -/
def serializeSummary : Option Str → J
  | none => .null
  | some s => .str s

/-- Inverse of `serializeSummary`. -/
def jOptStr? : J → Option (Option Str)
  | .null => some none
  | .str s => some (some s)
  | _ => none

/-- `model_dump_json` of a `CompressedContext`. -/
def serializeContext (ctx : CompressedContext) : J :=
  .obj [("chunks".data, .arr (ctx.chunks.map serializeChunk)),
        ("total_tokens".data, .num ctx.total_tokens),
        ("compression_ratio".data, .num ( CompressedContext.compression_ratio ctx)),
        ("excluded_sources".data,
          .arr (( CompressedContext.excluded_sources ctx).map J.str)),
        ("summary".data, serializeSummary ctx.summary)]

/-- `model_validate_json` of a `CompressedContext` (`total_tokens ≥ 0`,
`compression_ratio ≥ 0.0` are the pydantic field constraints). -/
def parseContext : J → Option CompressedContext
  | .obj fields =>
    match fields.lookup "chunks".data, fields.lookup "total_tokens".data,
          fields.lookup "compression_ratio".data,
          fields.lookup "excluded_sources".data,
          fields.lookup "summary".data with
    | some (.arr chunkJs), some ttj, some (.num ratio), some (.arr exJs),
      some sj =>
      match parseChunkList chunkJs, jNat? ttj, parseStrList exJs,
            jOptStr? sj with
      | some chunks, some total, some excluded, some summary =>
        if 0 ≤ ratio then
          some { chunks := chunks
                 total_tokens := total
                 compression_ratio := ratio
                 excluded_sources := excluded
                 summary := summary }
        else none
      | _, _, _, _ => none
    | _, _, _, _, _ => none
  | _ => none

/-- The checkpoint directory as a store: file name → JSON document. -/
abbrev Store := List (Str × J)

/-- Write (overwrite if present, else create) one file in the store. -/
def storeWrite : Store → Str → J → Store
  | [], name, doc => [(name, doc)]
  | kv :: rest, name, doc =>
    if kv.1 == name then (kv.1, doc) :: rest
    else kv :: storeWrite rest name doc

/-- `ContextCheckpoint.save`: serialize to JSON and write
`<checkpoint_dir>/<task_id>.json`. -/
def save (store : Store) (task_id : Str) (context : CompressedContext) : Store :=
  storeWrite store (task_id ++ ".json".data) (serializeContext context)

/-- Errors `load` can raise (pydantic validation failure on a corrupt file). -/
inductive LoadError where
  | validationError
deriving DecidableEq

/-- `ContextCheckpoint.load`: `Except.ok none` when the checkpoint file does
not exist (the Python code returns `None`), `Except.error` only when the file
exists but fails validation. -/
def load (store : Store) (task_id : Str) :
    Except LoadError (Option CompressedContext) :=
  match store.lookup (task_id ++ ".json".data) with
  | none => .ok none
  | some doc =>
    match parseContext doc with
    | some ctx => .ok (some ctx)
    | none => .error .validationError

/-- `ContextCheckpoint.delete`: unlink the file if present, report whether
anything was deleted. -/
def delete (store : Store) (task_id : Str) : Bool × Store :=
  let name := task_id ++ ".json".data
  if store.any (fun kv => kv.1 == name)
  then (true, store.filter (fun kv => !(kv.1 == name)))
  else (false, store)

end ContextCheckpoint

namespace ToolFactory

/-- A filesystem entry: a regular file with content, or a directory. -/
inductive FsEntry where
  | file (content : Str)
  | dir

/-- Filesystem state: resolved absolute paths (component lists) → entries. -/
abbrev Fs := List (List Str × FsEntry)

/-- Parse a path string into components as `pathlib` does: split on `/`,
drop empty and `"."` components (`".."` is kept for `resolve`). -/
def parseComponents (p : Str) : List Str :=
  (splitChar '/' p).filter (fun c => !c.isEmpty && c ≠ ".".data)

/-- Whether the path string is absolute (`Path("/w") / "/abs"` is `"/abs"`). -/
def isAbsPath (p : Str) : Bool :=
  match p with
  | '/' :: _ => true
  | _ => false

/-- `(workspace / params.path).resolve()` modelled lexically: start from the
resolved workspace components (or the root for an absolute argument) and fold
the components, `".."` popping one level (a no-op at the root, as in POSIX). -/
def resolveUnder (workspace : List Str) (p : Str) : List Str :=
  let base := if isAbsPath p then [] else workspace
  (parseComponents p).foldl
    (fun acc comp => if comp = "..".data then acc.dropLast else acc ++ [comp])
    base

/-- `file_path.relative_to(workspace.resolve())` succeeds exactly when the
workspace components are a prefix of the resolved path's components. -/
def insideWorkspace (workspace : List Str) (resolved : List Str) : Bool :=
  workspace.isPrefixOf resolved

/-- A tool's structured result: Python `{"success": True, ...}` or
`{"error": ...}` dictionaries. -/
inductive ToolResult where
  | ok (payload : Str)
  | err (msg : Str)
deriving DecidableEq

/-- The access-denial message shared by the file tools. -/
def accessDenied : Str := "Access denied: path outside workspace".data

/-- `read_file` from `tool_factory.py`: resolve, reject paths outside the
workspace with a structured error, then report not-found / not-a-file, else
return the content.  (The `encoding` parameter and decode failures are I/O
details outside the model.) -/
def read_file (fs : Fs) (workspace : List Str) (path : Str) : ToolResult :=
  let resolved := resolveUnder workspace path
  if !insideWorkspace workspace resolved then .err accessDenied
  else
    match fs.lookup resolved with
    | none => .err ("File not found: ".data ++ path)
    | some .dir => .err ("Not a file: ".data ++ path)
    | some (.file content) => .ok content

/-- `write_file` from `tool_factory.py`: the security check precedes any
filesystem mutation; on success the file is created/overwritten (parent
directories are created when `create_dirs`, and a missing parent without
`create_dirs` is a caught write failure). -/
def write_file (fs : Fs) (workspace : List Str) (path content : Str)
    (create_dirs : Bool) : ToolResult × Fs :=
  let resolved := resolveUnder workspace path
  if !insideWorkspace workspace resolved then (.err accessDenied, fs)
  else
    let parent := resolved.dropLast
    let parentExists := parent = workspace ||
      (fs.any (fun kv => kv.1 == parent &&
        (match kv.2 with | .dir => true | _ => false)))
    if create_dirs || parentExists then
      (.ok ("written".data),
        (fs.filter (fun kv => !(kv.1 == resolved))) ++ [(resolved, .file content)])
    else
      (.err ("Failed to write file: missing parent directory".data), fs)

/-- `list_directory` from `tool_factory.py`: same security check, then
not-found / not-a-directory errors, else the matching entries.  The glob
`pattern` is modelled for the default `"*"` (match all) and literal names;
`recursive` selects strict descendants instead of direct children. -/
def list_directory (fs : Fs) (workspace : List Str) (path : Str)
    (recursive : Bool) (pattern : Str) : ToolResult :=
  let resolved := resolveUnder workspace path
  if !insideWorkspace workspace resolved then .err accessDenied
  else
    let exists' := resolved = workspace ||
      fs.any (fun kv => kv.1 == resolved)
    let isDir := resolved = workspace ||
      fs.any (fun kv => kv.1 == resolved &&
        (match kv.2 with | .dir => true | _ => false))
    if !exists' then .err ("Directory not found: ".data ++ path)
    else if !isDir then .err ("Not a directory: ".data ++ path)
    else
      let children := fs.filter (fun kv =>
        if recursive
        then decide (resolved <+: kv.1) && decide (kv.1 ≠ resolved)
        else kv.1.dropLast == resolved)
      let names := children.map (fun kv => (kv.1.getLastD []))
      let matching := if pattern = "*".data then names
        else names.filter (fun n => n == pattern)
      .ok (List.intercalate "\n".data matching)

end ToolFactory

/-! ## Properties of the whitespace normalizer and the token counter -/

/-- "Contains no run of four (or more) newlines": exactly the strings on which
`re.sub(r'\n{4,}', ...)` is the identity. -/
def noQuad (s : Str) : Prop := ¬ (List.replicate 4 '\n' <:+: s)

instance noQuad.decidable (s : Str) : Decidable (noQuad s) :=
  inferInstanceAs (Decidable (¬ (List.replicate 4 '\n' <:+: s)))

theorem noQuad_cons {c : Char} {cs : Str} (h : noQuad (c :: cs)) : noQuad cs :=
  fun hin => h (List.infix_cons hin)

theorem noQuad_of_pre {s t : Str} (hp : s <+: t) (h : noQuad t) : noQuad s :=
  fun hin => h (hin.trans hp.isInfix)

theorem noQuad_leadNl {s : Str} (h : noQuad s) :
    (s.takeWhile (fun c => c == '\n')).length ≤ 3 := by
  by_contra hlen
  push_neg at hlen
  apply h
  apply List.IsPrefix.isInfix
  have htw : s.takeWhile (fun c => c == '\n')
      = List.replicate (s.takeWhile (fun c => c == '\n')).length '\n' := by
    rw [List.eq_replicate_iff]
    refine ⟨rfl, fun b hb => ?_⟩
    have hpb := List.mem_takeWhile_imp hb
    exact eq_of_beq hpb
  have hrep : List.replicate 4 '\n' <+: s.takeWhile (fun c => c == '\n') := by
    conv_rhs => rw [htw]
    refine ⟨ List.replicate ((s.takeWhile (fun c => c == '\n')).length - 4) '\n', ?_⟩
    rw [← List.replicate_add]
    congr 1
    omega
  exact hrep.trans (List.takeWhile_prefix _)

theorem stripWsGo_of_noQuad :
    ∀ (s : Str) (r : Nat), noQuad s →
      r + (s.takeWhile (fun c => c == '\n')).length ≤ 3 →
      stripWsGo r s = List.replicate r '\n' ++ s := by
  intro s
  induction s with
  | nil =>
    intro r _ hr
    simp only [List.takeWhile_nil, List.length_nil, Nat.add_zero] at hr
    simp [stripWsGo, Nat.min_eq_left hr]
  | cons c cs ih =>
    intro r hq hr
    by_cases hc : c = '\n'
    · subst hc
      have htw : (('\n' :: cs).takeWhile (fun c => c == '\n'))
          = '\n' :: cs.takeWhile (fun c => c == '\n') := by
        simp [List.takeWhile_cons]
      rw [htw] at hr
      simp only [List.length_cons] at hr
      have := ih (r + 1) (noQuad_cons hq) (by omega)
      simp only [stripWsGo, if_pos rfl, this, List.replicate_succ']
      simp
    · have htw : ((c :: cs).takeWhile (fun c => c == '\n')) = [] := by
        simp [List.takeWhile_cons, hc]
      rw [htw] at hr
      simp only [List.length_nil, Nat.add_zero] at hr
      have h0 := ih 0 (noQuad_cons hq)
        (by simpa using noQuad_leadNl (noQuad_cons hq))
      simp only [stripWsGo, if_neg hc, h0, Nat.min_eq_left hr]
      simp

/-- Normalization is the identity on strings with no 4-newline run. -/
theorem strip_of_noQuad {s : Str} (h : noQuad s) :
    strip_excessive_whitespace s = s := by
  have := stripWsGo_of_noQuad s 0 h (by simpa using noQuad_leadNl h)
  simpa [strip_excessive_whitespace] using this

/-- On the fallback path, truncation meets its token budget. -/
theorem count_trunc_le (t : Str) (m : Nat) :
    TokenCounter.count (TokenCounter.truncate_to_tokens t m) ≤ m := by
  unfold TokenCounter.truncate_to_tokens
  split
  · assumption
  · unfold TokenCounter.count
    calc (t.take (m * 4)).length / 4 ≤ (m * 4) / 4 := by
          apply Nat.div_le_div_right
          simp [List.length_take]
        _ = m := by omega

/-- On the fallback path, truncation returns a prefix of the input. -/
theorem trunc_pre (t : Str) (m : Nat) :
    TokenCounter.truncate_to_tokens t m <+: t := by
  unfold TokenCounter.truncate_to_tokens
  split
  · exact List.prefix_refl t
  · exact List.take_prefix _ t

/-! ## Claim theorems -/

/-- C5: `add_error_context` returns a new `CompressedContext` with one new
CRITICAL `error` chunk prepended at index 0 (length + 1) and `total_tokens`
increased by exactly that chunk's token count.  (The original value is
untouched by construction: the Python code builds a fresh `CompressedContext`
and assigns to no field of its argument, which the purely functional embedding
reflects.) -/
theorem c5_add_error_context_prepends (fresh_id : Str) (c : CompressedContext)
    (error_message : Str) (stack_trace : Option Str) :
    ∃ e : ContextChunk,
      ( ContextManager.add_error_context fresh_id c error_message stack_trace).chunks
        = e :: c.chunks ∧
      ( ContextManager.add_error_context fresh_id c error_message stack_trace).chunks.length
        = c.chunks.length + 1 ∧
      e.priority = ContextPriority.CRITICAL ∧
      e.chunk_type = ChunkType.error ∧
      ( ContextManager.add_error_context fresh_id c error_message stack_trace).total_tokens
        = c.total_tokens + e.token_count := by
  refine ⟨_, rfl, by simp [ ContextManager.add_error_context], rfl, rfl, rfl⟩

/-- C10: `add_error_context` carries `compression_ratio`, `excluded_sources`
and `summary` over unchanged from its argument — in particular the ratio is
not recomputed from the new totals. -/
theorem c10_add_error_context_frame (fresh_id : Str) (c : CompressedContext)
    (error_message : Str) (stack_trace : Option Str) :
    CompressedContext.compression_ratio
        ( ContextManager.add_error_context fresh_id c error_message stack_trace)
      = CompressedContext.compression_ratio c ∧
    CompressedContext.excluded_sources
        ( ContextManager.add_error_context fresh_id c error_message stack_trace)
      = CompressedContext.excluded_sources c ∧
    ( ContextManager.add_error_context fresh_id c error_message stack_trace).summary
      = c.summary :=
  ⟨rfl, rfl, rfl⟩

/-- C9 (counterexample): loading a missing checkpoint returns the silent
default `None` (`Except.ok none`), not a caller-visible error — `LoadError`
has a single constructor, so the inequality rules out every error result. -/
theorem c9_load_missing_counterexample :
    ContextCheckpoint.load [] "t1".data = Except.ok none ∧
    ContextCheckpoint.load [] "t1".data
      ≠ Except.error ContextCheckpoint.LoadError.validationError :=
  ⟨rfl, fun h => Except.noConfusion h⟩

/-- C9 (amended): when the checkpoint file for the task id does not exist,
`ContextCheckpoint.load` returns `None` — a sentinel the caller must test —
and raises no error; only a corrupt existing file raises. -/
theorem c9_load_missing_returns_none (store : ContextCheckpoint.Store)
    (task_id : Str)
    (h : store.lookup (task_id ++ ".json".data) = none) :
    ContextCheckpoint.load store task_id = Except.ok none := by
  unfold ContextCheckpoint.load
  rw [h]

/-- Witness for `c9_load_missing_returns_none` at the empty store. -/
theorem c9_load_missing_witness :
    ([] : ContextCheckpoint.Store).lookup ("t2".data ++ ".json".data) = none ∧
    ContextCheckpoint.load [] "t2".data = Except.ok none :=
  ⟨rfl, c9_load_missing_returns_none [] "t2".data rfl⟩

/-- Unfolding of `_truncate_chunk` when the remaining budget clears the
50-token floor and the chunk is not a `file` chunk: plain token truncation
with the token count recomputed from the truncated text. -/
theorem truncate_chunk_nonfile_eq {chunk : ContextChunk} {m : Nat}
    (hty : chunk.chunk_type ≠ ChunkType.file) (h50 : ¬ m < 50) :
    ContextCompressor.truncate_chunk chunk m
      = some (mkContextChunk chunk.chunk_id
          ( TokenCounter.truncate_to_tokens chunk.content m) chunk.source
          chunk.chunk_type chunk.priority
          ( TokenCounter.count ( TokenCounter.truncate_to_tokens chunk.content m))
          ( ContextCompressor.dictInsert chunk.metadata "truncated".data
            (J.bool true))) := by
  unfold ContextCompressor.truncate_chunk
  rw [if_neg h50]
  simp [if_neg hty]

/-- `_truncate_chunk` never succeeds below the 50-token floor. -/
theorem truncate_chunk_lt50 {chunk : ContextChunk} {m : Nat} (h50 : m < 50) :
    ContextCompressor.truncate_chunk chunk m = none := by
  unfold ContextCompressor.truncate_chunk
  rw [if_pos h50]

/-- A non-`file` chunk surviving `_truncate_chunk` fits the requested budget. -/
theorem truncate_chunk_nonfile_le {chunk t : ContextChunk} {m : Nat}
    (hty : chunk.chunk_type ≠ ChunkType.file)
    (h : ContextCompressor.truncate_chunk chunk m = some t) :
    t.token_count ≤ m := by
  by_cases h50 : m < 50
  · rw [truncate_chunk_lt50 h50] at h
    exact absurd h (by simp)
  · rw [truncate_chunk_nonfile_eq hty h50] at h
    injection h with h'
    rw [← h']
    simpa [mkContextChunk] using count_trunc_le chunk.content m

/-- C3 (amended): in the partial-fit branch (`running_total < available` but
the chunk does not fit whole) the chunk is truncated to the remaining budget;
with at least 50 remaining tokens the truncated chunk is included, below 50 it
is dropped — and in *both* cases the source is recorded in `excluded_sources`
with the `" (truncated)"` suffix (the Python `append` sits outside the
`if truncated:` test). -/
theorem c3_truncation_branch (available : Nat)
    (st : ContextCompressor.CompressState) (chunk : ContextChunk)
    (hfit : ¬ (st.total + chunk.token_count ≤ available))
    (hrem : st.total < available) :
    ( ContextCompressor.compressStep available st chunk).excluded
      = st.excluded ++ [chunk.source ++ " (truncated)".data] ∧
    (¬ (available - st.total < 50) →
      ∃ t, ContextCompressor.truncate_chunk chunk (available - st.total) = some t ∧
        ( ContextCompressor.compressStep available st chunk).included
          = st.included ++ [t] ∧
        ( ContextCompressor.compressStep available st chunk).total
          = st.total + t.token_count) ∧
    (available - st.total < 50 →
      ( ContextCompressor.compressStep available st chunk).included = st.included ∧
      ( ContextCompressor.compressStep available st chunk).total = st.total) := by
  unfold ContextCompressor.compressStep
  rw [if_neg hfit, if_pos hrem]
  refine ⟨?_, ?_, ?_⟩
  · cases htr : ContextCompressor.truncate_chunk chunk (available - st.total) with
    | none => simp [htr]
    | some t => simp [htr]
  · intro h50
    cases htr : ContextCompressor.truncate_chunk chunk (available - st.total) with
    | none =>
      exfalso
      have hne : ContextCompressor.truncate_chunk chunk (available - st.total)
          ≠ none := by
        unfold ContextCompressor.truncate_chunk
        rw [if_neg h50]
        simp
      exact hne htr
    | some t => exact ⟨t, rfl, by simp [htr], by simp [htr]⟩
  · intro h50
    simp [truncate_chunk_lt50 h50]

/-- Concrete chunk for the C3 scenario: 80 characters, 20 fallback tokens. -/
def c3chunk : ContextChunk :=
  mkContextChunk "id3".data (List.replicate 80 'x') "big.md".data
    ChunkType.history ContextPriority.MEDIUM 20 []

/-- Budget whose `input_available` is 10, below the 50-token truncation floor. -/
def c3budget : TokenBudget :=
  { input_max := 1000, output_max := 4000, input_used := 0, output_used := 0,
    reserved := 990 }

/-- C3 (counterexample): with 10 available tokens the 20-token chunk is
dropped (truncation target below 50), yet its source is recorded *with* the
`" (truncated)"` suffix — the claim says a dropped chunk is recorded without
the suffix. -/
theorem c3_dropped_chunk_suffix_counterexample :
    ( ContextCompressor.compress [c3chunk] c3budget).excluded_sources
      = ["big.md (truncated)".data] ∧
    ( ContextCompressor.compress [c3chunk] c3budget).excluded_sources
      ≠ ["big.md".data] ∧
    ( ContextCompressor.compress [c3chunk] c3budget).chunks = [] := by
  refine ⟨rfl, by decide, rfl⟩

/-- Witness for `c3_truncation_branch`: a 20-token chunk against 10 available
tokens lands in the truncation branch and is recorded with the suffix. -/
theorem c3_truncation_branch_witness :
    ( ContextCompressor.compressStep 10 ⟨[], [], 0⟩ c3chunk).excluded
      = ["big.md (truncated)".data] := by
  have h := (c3_truncation_branch 10 ⟨[], [], 0⟩ c3chunk (by decide) (by decide)).1
  simpa using h

/-- Fold-invariant preservation with a per-element hypothesis. -/
theorem foldl_pres {σ α : Type _} {P : σ → Prop} {Q : α → Prop}
    (step : σ → α → σ)
    (hstep : ∀ s a, Q a → P s → P (step s a)) :
    ∀ (l : List α), (∀ a ∈ l, Q a) → ∀ s, P s → P (l.foldl step s) := by
  intro l
  induction l with
  | nil => intro _ s hs; simpa using hs
  | cons x xs ih =>
    intro hq s hs
    simp only [List.foldl_cons]
    exact ih (fun a ha => hq a (List.mem_cons_of_mem _ ha)) _
      (hstep s x (hq x (List.mem_cons_self _ _)) hs)

/-- The compressor loop keeps `total` equal to the sum of the included chunks'
token counts: in each branch the amount added to the running total is exactly
the appended chunk's `token_count` field. -/
theorem compressStep_total_sum (available : Nat)
    (st : ContextCompressor.CompressState) (chunk : ContextChunk)
    (h : st.total = (st.included.map (fun c => c.token_count)).sum) :
    ( ContextCompressor.compressStep available st chunk).total
      = (( ContextCompressor.compressStep available st chunk).included.map
          (fun c => c.token_count)).sum := by
  simp only [ ContextCompressor.compressStep]
  split_ifs with h1 h2
  · simp [List.sum_append, h]
  · cases htr : ContextCompressor.truncate_chunk chunk (available - st.total) with
    | some t =>
      show st.total + t.token_count
        = ((st.included ++ [t]).map (fun c => c.token_count)).sum
      simp [List.sum_append, h]
    | none => exact h
  · simpa using h

/-- When no `file` chunk is involved, each compressor step keeps the running
total within the available budget (the plain truncation path recomputes a
token count that fits the remaining budget). -/
theorem compressStep_total_le (available : Nat)
    (st : ContextCompressor.CompressState) (chunk : ContextChunk)
    (hty : chunk.chunk_type ≠ ChunkType.file)
    (h : st.total ≤ available) :
    ( ContextCompressor.compressStep available st chunk).total ≤ available := by
  simp only [ ContextCompressor.compressStep]
  split_ifs with h1 h2
  · simpa using h1
  · cases htr : ContextCompressor.truncate_chunk chunk (available - st.total) with
    | some t =>
      have hle := truncate_chunk_nonfile_le hty htr
      show st.total + t.token_count ≤ available
      omega
    | none => exact h
  · simpa using h

/-- C2 (amended): `compress` always returns `total_tokens` equal to the exact
sum of the included chunks' token counts; and `total_tokens ≤
budget.input_available` holds whenever no input chunk has chunk type `file`
(smart truncation of a `file` chunk splices in an uncounted separator that can
overshoot the budget — see the counterexample). -/
theorem c2_budget_conservation (chunks : List ContextChunk)
    (budget : TokenBudget) :
    ( ContextCompressor.compress chunks budget).total_tokens
      = ((( ContextCompressor.compress chunks budget).chunks).map
          (fun c => c.token_count)).sum ∧
    ((∀ c ∈ chunks, c.chunk_type ≠ ChunkType.file) →
      ( ContextCompressor.compress chunks budget).total_tokens
        ≤ TokenBudget.input_available budget) := by
  constructor
  · exact @foldl_pres _ _
      (fun st => st.total = (st.included.map (fun c => c.token_count)).sum)
      (fun _ => True)
      ( ContextCompressor.compressStep (TokenBudget.input_available budget))
      (fun s a _ hp => compressStep_total_sum _ s a hp)
      chunks (fun _ _ => trivial) ⟨[], [], 0⟩ rfl
  · intro hQ
    exact @foldl_pres _ _
      (fun st => st.total ≤ TokenBudget.input_available budget)
      (fun c => c.chunk_type ≠ ChunkType.file)
      ( ContextCompressor.compressStep (TokenBudget.input_available budget))
      (fun s a hq hp => compressStep_total_le _ s a hq hp)
      chunks hQ ⟨[], [], 0⟩ (Nat.zero_le _)

/-- A 300-character (75 fallback tokens) `file` chunk with no import lines. -/
def cexFileChunk : ContextChunk :=
  mkContextChunk "idf".data (List.replicate 300 'x') "big.py".data
    ChunkType.file ContextPriority.MEDIUM 75 []

/-- Budget with exactly 50 available input tokens. -/
def c2budget : TokenBudget :=
  { input_max := 1000, output_max := 4000, input_used := 450, output_used := 0,
    reserved := 500 }

set_option maxRecDepth 40000 in
/-- C2 (counterexample): truncating the `file` chunk to the 50 remaining
tokens yields content of 225 characters (the uncounted
`"\n\n# ... (truncated) ...\n\n"` separator plus 200 kept characters), whose
recomputed count is 56 — so the returned `total_tokens` is 56 > 50 =
`input_available`. -/
theorem c2_budget_overshoot_counterexample :
    ( ContextCompressor.compress [cexFileChunk] c2budget).total_tokens = 56 ∧
    TokenBudget.input_available c2budget = 50 ∧
    ¬ (( ContextCompressor.compress [cexFileChunk] c2budget).total_tokens
        ≤ TokenBudget.input_available c2budget) := by
  refine ⟨rfl, rfl, by decide⟩

/-- A small non-`file` chunk for the C2 witness. -/
def c2wchunk : ContextChunk :=
  mkContextChunk "idw".data (List.replicate 40 'y') "notes".data
    ChunkType.history ContextPriority.MEDIUM 10 []

/-- Witness for `c2_budget_conservation` on a concrete non-`file` input. -/
theorem c2_budget_conservation_witness :
    (∀ c ∈ [c2wchunk], c.chunk_type ≠ ChunkType.file) ∧
    ( ContextCompressor.compress [c2wchunk] { } ).total_tokens
      ≤ TokenBudget.input_available { } :=
  ⟨by decide, (c2_budget_conservation [c2wchunk] { }).2 (by decide)⟩

/-- C6 (amended): on the modelled character-estimation path,
`truncate_to_tokens` returns a prefix of its input whose recount is within
`max_tokens`; and a chunk truncated by the compressor has its recomputed
`token_count` within the requested budget whenever the chunk is not a `file`
chunk.  (For a `file` chunk the separator spliced in by `_smart_truncate_code`
is not charged against the budget and the recount can overshoot — see the
counterexample; the encoding-backed path lives in the external tokenizer.) -/
theorem c6_truncation_contract :
    (∀ (text : Str) (max_tokens : Nat),
      TokenCounter.count ( TokenCounter.truncate_to_tokens text max_tokens)
        ≤ max_tokens ∧
      TokenCounter.truncate_to_tokens text max_tokens <+: text) ∧
    (∀ (chunk t : ContextChunk) (max_tokens : Nat),
      chunk.chunk_type ≠ ChunkType.file →
      ContextCompressor.truncate_chunk chunk max_tokens = some t →
      t.token_count ≤ max_tokens) :=
  ⟨fun text m => ⟨count_trunc_le text m, trunc_pre text m⟩,
   fun _ _ _ hty h => truncate_chunk_nonfile_le hty h⟩

/-- An 8-character HIGH `error` chunk for the C6 witness. -/
def c6wchunk : ContextChunk :=
  mkContextChunk "id6".data "abcdefgh".data "err.log".data ChunkType.error
    ContextPriority.HIGH 2 []

/-- The value `_truncate_chunk` produces for `c6wchunk` at budget 60. -/
def c6wtrunc : ContextChunk :=
  mkContextChunk "id6".data "abcdefgh".data "err.log".data ChunkType.error
    ContextPriority.HIGH 2 [("truncated".data, J.bool true)]

/-- Witness for `c6_truncation_contract` on a concrete non-`file` chunk. -/
theorem c6_truncation_contract_witness :
    c6wchunk.chunk_type ≠ ChunkType.file ∧
    ContextCompressor.truncate_chunk c6wchunk 60 = some c6wtrunc ∧
    c6wtrunc.token_count ≤ 60 :=
  ⟨by decide, rfl,
   c6_truncation_contract.2 c6wchunk c6wtrunc 60 (by decide) rfl⟩

set_option maxRecDepth 40000 in
/-- C6 (counterexample): the compressor's truncation of a 300-character `file`
chunk to a requested 50 tokens recomputes a token count of 56 > 50. -/
theorem c6_file_truncation_counterexample :
    ( ContextCompressor.truncate_chunk cexFileChunk 50).map
      (fun t => t.token_count) = some 56 ∧
    ¬ (56 ≤ 50) :=
  ⟨rfl, by decide⟩

/-- The compressor loop preserves `token_count == count(content)` across every
chunk it includes, provided each incoming chunk already satisfies it, has
normalized content, and is not a `file` chunk (so its truncation is a prefix,
which cannot create a new 4-newline run for the validator to rewrite). -/
theorem compressStep_token_inv (available : Nat)
    (st : ContextCompressor.CompressState) (chunk : ContextChunk)
    (hq : chunk.token_count = TokenCounter.count chunk.content ∧
      noQuad chunk.content ∧ chunk.chunk_type ≠ ChunkType.file)
    (hp : ∀ c ∈ st.included, c.token_count = TokenCounter.count c.content) :
    ∀ c ∈ ( ContextCompressor.compressStep available st chunk).included,
      c.token_count = TokenCounter.count c.content := by
  obtain ⟨hq1, hq2, hq3⟩ := hq
  simp only [ ContextCompressor.compressStep]
  split_ifs with h1 h2
  · intro c hc
    have hc' : c ∈ st.included ++ [chunk] := hc
    rcases List.mem_append.mp hc' with h | h
    · exact hp c h
    · have hce := List.mem_singleton.mp h
      subst hce
      exact hq1
  · cases htr : ContextCompressor.truncate_chunk chunk (available - st.total) with
    | some t =>
      intro c hc
      have hc' : c ∈ st.included ++ [t] := hc
      rcases List.mem_append.mp hc' with h | h
      · exact hp c h
      · have hce := List.mem_singleton.mp h
        subst hce
        by_cases h50 : available - st.total < 50
        · rw [truncate_chunk_lt50 h50] at htr
          exact absurd htr (by simp)
        · rw [truncate_chunk_nonfile_eq hq3 h50] at htr
          injection htr with htr'
          have hnq : noQuad ( TokenCounter.truncate_to_tokens chunk.content
              (available - st.total)) :=
            noQuad_of_pre (trunc_pre _ _) hq2
          rw [← htr']
          show TokenCounter.count ( TokenCounter.truncate_to_tokens
              chunk.content (available - st.total))
            = TokenCounter.count (strip_excessive_whitespace
              ( TokenCounter.truncate_to_tokens chunk.content
                (available - st.total)))
          rw [strip_of_noQuad hnq]
    | none =>
      intro c hc
      exact hp c hc
  · intro c hc
    exact hp c hc

/-- C1 (amended): `token_count` always equals the count of the text passed to
the constructor, which equals `count(content)` exactly when normalization
leaves that text unchanged (no run of four or more newlines).  So a gatherer
chunk built from normalization-fixed file text satisfies the invariant, and
`compress` preserves it through inclusion and (non-`file`) truncation. -/
theorem c1_token_count_invariant_amended :
    (∀ (fresh_id relative_path content : Str) (focus_files : List Str),
      noQuad content →
      ( ContextGatherer.gatherFileChunk fresh_id relative_path content
          focus_files).token_count
        = TokenCounter.count
          ( ContextGatherer.gatherFileChunk fresh_id relative_path content
              focus_files).content) ∧
    (∀ (chunks : List ContextChunk) (budget : TokenBudget),
      (∀ c ∈ chunks, c.token_count = TokenCounter.count c.content ∧
        noQuad c.content ∧ c.chunk_type ≠ ChunkType.file) →
      ∀ c ∈ ( ContextCompressor.compress chunks budget).chunks,
        c.token_count = TokenCounter.count c.content) := by
  constructor
  · intro fid rel content focus h
    show TokenCounter.count content
      = TokenCounter.count (strip_excessive_whitespace content)
    rw [strip_of_noQuad h]
  · intro chunks budget hQ
    exact @foldl_pres _ _
      (fun st => ∀ c ∈ st.included,
        c.token_count = TokenCounter.count c.content)
      (fun c => c.token_count = TokenCounter.count c.content ∧
        noQuad c.content ∧ c.chunk_type ≠ ChunkType.file)
      ( ContextCompressor.compressStep (TokenBudget.input_available budget))
      (fun s a hq hp => compressStep_token_inv _ s a hq hp)
      chunks hQ ⟨[], [], 0⟩ (by simp)

/-- Raw file text containing a run of 12 newlines: 20 characters, 5 fallback
tokens; the validator collapses it to 11 characters, 2 tokens. -/
def c1raw : Str :=
  List.replicate 4 'a' ++ List.replicate 12 '\n' ++ List.replicate 4 'b'

/-- C1 (counterexample): the gatherer computes `token_count` from the raw file
text and only then does the pydantic validator collapse the newline run, so
the stored chunk has `token_count = 5` but `count(content) = 2`. -/
theorem c1_normalization_counterexample :
    ( ContextGatherer.gatherFileChunk "idc1".data "notes.txt".data c1raw
        []).token_count = 5 ∧
    TokenCounter.count ( ContextGatherer.gatherFileChunk "idc1".data
        "notes.txt".data c1raw []).content = 2 ∧
    ¬ (( ContextGatherer.gatherFileChunk "idc1".data "notes.txt".data c1raw
          []).token_count
        = TokenCounter.count ( ContextGatherer.gatherFileChunk "idc1".data
            "notes.txt".data c1raw []).content) := by
  refine ⟨rfl, rfl, by decide⟩

/-- Witness for `c1_token_count_invariant_amended` on normalization-fixed
inputs. -/
theorem c1_token_count_invariant_witness :
    noQuad "hello".data ∧
    ( ContextGatherer.gatherFileChunk "idw1".data "a.py".data "hello".data
        []).token_count
      = TokenCounter.count ( ContextGatherer.gatherFileChunk "idw1".data
          "a.py".data "hello".data []).content :=
  ⟨by decide,
   c1_token_count_invariant_amended.1 "idw1".data "a.py".data "hello".data []
     (by decide)⟩

/-- The scoring formula exactly as claim C4 words it: *for each keyword, 150
if the keyword is a substring of the source path **and** 50 if it is a
substring of the chunk content* — i.e. the two keyword boosts accumulate. -/
def spec_score_claimed (task_type : TaskType) (keywords : List Str)
    (chunk : ContextChunk) : Nat :=
  let source_lower := toLowerStr chunk.source
  let content_lower := toLowerStr chunk.content
  let kws := keywords.map toLowerStr
  ContextPrioritizer.PRIORITY_SCORES chunk.priority
  + (if ( ContextPrioritizer.TASK_PATTERNS task_type).any
        (fun p => isSub p source_lower) then 100 else 0)
  + (kws.map (fun kw =>
      (if isSub kw source_lower then 150 else 0)
      + (if isSub kw content_lower then 50 else 0))).sum
  + (if task_type = TaskType.DEBUG ∧
        (isSub "error".data content_lower ∨ isSub "exception".data content_lower)
      then 200 else 0)
  + (if task_type = TaskType.TEST ∧
        (isSub "test".data source_lower ∨ isSub "spec".data source_lower)
      then 150 else 0)

/-- The claim's formula amended to the code's `elif`: per keyword, 150 on a
source-path match, *else* 50 on a content match, never both. -/
def spec_score_amended (task_type : TaskType) (keywords : List Str)
    (chunk : ContextChunk) : Nat :=
  let source_lower := toLowerStr chunk.source
  let content_lower := toLowerStr chunk.content
  let kws := keywords.map toLowerStr
  ContextPrioritizer.PRIORITY_SCORES chunk.priority
  + (if ( ContextPrioritizer.TASK_PATTERNS task_type).any
        (fun p => isSub p source_lower) then 100 else 0)
  + (kws.map (fun kw =>
      if isSub kw source_lower then 150
      else if isSub kw content_lower then 50 else 0)).sum
  + (if task_type = TaskType.DEBUG ∧
        (isSub "error".data content_lower ∨ isSub "exception".data content_lower)
      then 200 else 0)
  + (if task_type = TaskType.TEST ∧
        (isSub "test".data source_lower ∨ isSub "spec".data source_lower)
      then 150 else 0)

/-- The keyword fold of `_score_chunk` accumulates exactly the per-keyword
boosts. -/
theorem foldl_two_boost {α : Type _} (p q : α → Bool) :
    ∀ (l : List α) (a : Nat),
      l.foldl (fun acc kw =>
          if p kw then acc + 150 else if q kw then acc + 50 else acc) a
        = a + (l.map (fun kw =>
            if p kw then 150 else if q kw then 50 else 0)).sum := by
  intro l
  induction l with
  | nil => simp
  | cons x xs ih =>
    intro a
    simp only [List.foldl_cons, List.map_cons, List.sum_cons]
    rw [ih]
    split_ifs <;> omega

/-- MEDIUM chunk whose source and content both contain the keyword `"a"`. -/
def c4chunk : ContextChunk :=
  mkContextChunk "id4".data "a".data "a".data ChunkType.file
    ContextPriority.MEDIUM 0 []

/-- C4 (counterexample): with keyword `"a"` matching both source and content,
the code's `elif` awards 500 + 150 = 650, while the claim's additive formula
demands 500 + 150 + 50 = 700. -/
theorem c4_keyword_boost_counterexample :
    ContextPrioritizer.score_chunk TaskType.UNKNOWN ["a".data] c4chunk = 650 ∧
    spec_score_claimed TaskType.UNKNOWN ["a".data] c4chunk = 700 ∧
    ¬ ( ContextPrioritizer.score_chunk TaskType.UNKNOWN ["a".data] c4chunk
        = spec_score_claimed TaskType.UNKNOWN ["a".data] c4chunk) := by
  refine ⟨by decide, by decide, by decide⟩

/-- C4 (amended): `_score_chunk` computes the base tier score, plus 100 at
most once for a task-pattern match, plus per keyword 150 on a source match
*else* 50 on a content match, plus the DEBUG/TEST fixed boosts; and
`prioritize` orders chunks by this score, highest first (a permutation of its
input, sorted in descending score order). -/
theorem c4_scoring_amended :
    (∀ (task_type : TaskType) (keywords : List Str) (chunk : ContextChunk),
      ContextPrioritizer.score_chunk task_type keywords chunk
        = spec_score_amended task_type keywords chunk) ∧
    (∀ (task_type : TaskType) (keywords : List Str)
        (chunks : List ContextChunk),
      List.Pairwise (fun a b =>
          ContextPrioritizer.score_chunk task_type keywords b
            ≤ ContextPrioritizer.score_chunk task_type keywords a)
        ( ContextPrioritizer.prioritize task_type keywords chunks) ∧
      ( ContextPrioritizer.prioritize task_type keywords chunks).Perm chunks) := by
  constructor
  · intro task_type keywords chunk
    simp only [ ContextPrioritizer.score_chunk, spec_score_amended]
    rw [foldl_two_boost]
    split_ifs <;> omega
  · intro task_type keywords chunks
    constructor
    · have hs := @List.sorted_mergeSort ContextChunk
        (fun a b : ContextChunk =>
          decide ( ContextPrioritizer.score_chunk task_type keywords b
            ≤ ContextPrioritizer.score_chunk task_type keywords a))
        (fun a b c hab hbc => by
          simp only [decide_eq_true_eq] at hab hbc ⊢
          omega)
        (fun a b => by
          simp only [Bool.or_eq_true, decide_eq_true_eq]
          omega)
        chunks
      exact hs.imp (fun h => by simpa using h)
    · exact List.mergeSort_perm chunks _

/-- The chunk-type literal round-trips through its value string. -/
theorem chunkTypeOfStr_rt (t : ChunkType) :
    ContextCheckpoint.chunkTypeOfStr ( ContextCompressor.chunkTypeStr t)
      = some t := by
  cases t <;> rfl

/-- The priority enum round-trips through its value string. -/
theorem priorityOfStr_rt (p : ContextPriority) :
    ContextCheckpoint.priorityOfStr ( ContextCheckpoint.priorityStr p)
      = some p := by
  cases p <;> rfl

/-- A serialized `Nat` passes the `ge=0` integer validation unchanged. -/
theorem jNat?_natCast (n : Nat) :
    ContextCheckpoint.jNat? (J.num n) = some n := by
  simp [ ContextCheckpoint.jNat?, Rat.den_natCast, Rat.num_natCast]

/-- The optional summary round-trips through null / string JSON. -/
theorem jOptStr?_rt (s : Option Str) :
    ContextCheckpoint.jOptStr? ( ContextCheckpoint.serializeSummary s)
      = some s := by
  cases s <;> rfl

/-- Computation of `parseChunk` on a serialized chunk: every field lookup
resolves by key, leaving the validation of the symbolic field values. -/
theorem parseChunk_serializeChunk_eq (cid content src : Str) (ty : ChunkType)
    (pr : ContextPriority) (tc : Nat) (md : List (Str × J)) :
    ContextCheckpoint.parseChunk
      ( ContextCheckpoint.serializeChunk ⟨cid, content, src, ty, pr, tc, md⟩)
      = (if content.isEmpty then none
         else
           match ContextCheckpoint.chunkTypeOfStr
                   ( ContextCompressor.chunkTypeStr ty),
                 ContextCheckpoint.priorityOfStr
                   ( ContextCheckpoint.priorityStr pr),
                 ContextCheckpoint.jNat? (J.num tc) with
           | some ty', some pr', some tc' =>
             some ⟨cid, strip_excessive_whitespace content, src, ty', pr',
               tc', md⟩
           | _, _, _ => none) := rfl

/-- One chunk round-trips through `model_dump_json` / `model_validate_json`
when its content is non-empty and already normalized (true of every chunk the
pipeline constructs, since the validator normalizes at construction and
normalization is idempotent). -/
theorem parseChunk_serializeChunk (c : ContextChunk)
    (h1 : c.content.isEmpty = false)
    (h2 : strip_excessive_whitespace c.content = c.content) :
    ContextCheckpoint.parseChunk ( ContextCheckpoint.serializeChunk c)
      = some c := by
  obtain ⟨cid, content, src, ty, pr, tc, md⟩ := c
  rw [parseChunk_serializeChunk_eq, if_neg (by simp_all), chunkTypeOfStr_rt,
    priorityOfStr_rt, jNat?_natCast]
  simp_all

/-- Chunk lists round-trip elementwise. -/
theorem parseChunkList_rt (l : List ContextChunk)
    (h : ∀ c ∈ l, c.content.isEmpty = false ∧
      strip_excessive_whitespace c.content = c.content) :
    ContextCheckpoint.parseChunkList (l.map ContextCheckpoint.serializeChunk)
      = some l := by
  induction l with
  | nil => rfl
  | cons c cs ih =>
    have h1 := h c (List.mem_cons_self _ _)
    have hrest := ih (fun a ha => h a (List.mem_cons_of_mem _ ha))
    simp only [List.map_cons, ContextCheckpoint.parseChunkList]
    rw [parseChunk_serializeChunk c h1.1 h1.2, hrest]

/-- String lists round-trip elementwise. -/
theorem parseStrList_rt (l : List Str) :
    ContextCheckpoint.parseStrList (l.map J.str) = some l := by
  induction l with
  | nil => rfl
  | cons s ss ih =>
    simp only [List.map_cons, ContextCheckpoint.parseStrList,
      ContextCheckpoint.jStr?, ih]

/-- Computation of `parseContext` on a serialized context. -/
theorem parseContext_serializeContext_eq (chunks : List ContextChunk)
    (total : Nat) (ratio : ℚ) (excluded : List Str) (summary : Option Str) :
    ContextCheckpoint.parseContext
      ( ContextCheckpoint.serializeContext
        ⟨chunks, total, ratio, excluded, summary⟩)
      = (match ContextCheckpoint.parseChunkList
                 (chunks.map ContextCheckpoint.serializeChunk),
               ContextCheckpoint.jNat? (J.num total),
               ContextCheckpoint.parseStrList (excluded.map J.str),
               ContextCheckpoint.jOptStr?
                 ( ContextCheckpoint.serializeSummary summary) with
         | some cs, some tt, some ex, some sm =>
           if 0 ≤ ratio then some ⟨cs, tt, ratio, ex, sm⟩ else none
         | _, _, _, _ => none) := rfl

/-- Writing a checkpoint file makes it the one `load` finds for that name. -/
theorem storeWrite_lookup (store : ContextCheckpoint.Store) (name : Str)
    (doc : J) :
    ( ContextCheckpoint.storeWrite store name doc).lookup name = some doc := by
  induction store with
  | nil => simp [ ContextCheckpoint.storeWrite, List.lookup]
  | cons kv rest ih =>
    obtain ⟨k, v⟩ := kv
    simp only [ ContextCheckpoint.storeWrite]
    by_cases h : (k == name) = true
    · rw [if_pos h]
      have he : k = name := eq_of_beq h
      simp [List.lookup, he]
    · rw [if_neg h]
      have hne : (name == k) = false := by
        refine beq_eq_false_iff_ne.mpr (fun he => h ?_)
        exact beq_iff_eq.mpr he.symm
      simp [List.lookup, hne, ih]

/-- C7: `load (save task_id ctx)` restores a `CompressedContext` equal to
`ctx` in every field, given the pipeline invariants pydantic re-validates on
load: chunk contents non-empty and normalization-fixed, and a non-negative
compression ratio. -/
theorem c7_checkpoint_roundtrip (store : ContextCheckpoint.Store)
    (task_id : Str) (ctx : CompressedContext)
    (hch : ∀ c ∈ ctx.chunks, c.content.isEmpty = false ∧
      strip_excessive_whitespace c.content = c.content)
    (hr : 0 ≤ CompressedContext.compression_ratio ctx) :
    ContextCheckpoint.load ( ContextCheckpoint.save store task_id ctx) task_id
      = Except.ok (some ctx) := by
  unfold ContextCheckpoint.load ContextCheckpoint.save
  obtain ⟨chunks, total, ratio, excluded, summary⟩ := ctx
  have hparse : ContextCheckpoint.parseContext
      ( ContextCheckpoint.serializeContext
        ⟨chunks, total, ratio, excluded, summary⟩)
      = some ⟨chunks, total, ratio, excluded, summary⟩ := by
    rw [parseContext_serializeContext_eq, parseChunkList_rt chunks hch,
      jNat?_natCast, parseStrList_rt, jOptStr?_rt]
    have hr' : (0 : ℚ) ≤ ratio := hr
    simp [hr']
  simp only [storeWrite_lookup, hparse]

/-- A small concrete `CompressedContext` for the C7 witness. -/
def c7ctx : CompressedContext :=
  { chunks := [mkContextChunk "idc7".data "print(1)".data "main.py".data
      ChunkType.file ContextPriority.MEDIUM 2 []]
    total_tokens := 2
    compression_ratio := 1
    excluded_sources := ["dropped.py".data]
    summary := some "ok".data }

/-- Witness for `c7_checkpoint_roundtrip` at a concrete context. -/
theorem c7_checkpoint_roundtrip_witness :
    (∀ c ∈ c7ctx.chunks, c.content.isEmpty = false ∧
      strip_excessive_whitespace c.content = c.content) ∧
    0 ≤ CompressedContext.compression_ratio c7ctx ∧
    ContextCheckpoint.load ( ContextCheckpoint.save [] "t7".data c7ctx)
      "t7".data = Except.ok (some c7ctx) :=
  ⟨by decide, by decide,
   c7_checkpoint_roundtrip [] "t7".data c7ctx (by decide) (by decide)⟩

/-- C8: a file-tool invocation whose path resolves outside the workspace root
returns the structured access-denied result (a returned value, not an
exception — the Python code catches the `ValueError` from `relative_to` and
returns the error dictionary), and `write_file` performs no filesystem
mutation: the security check precedes any `mkdir` or write. -/
theorem c8_sandbox_enforcement (fs : ToolFactory.Fs) (workspace : List Str)
    (path content pattern : Str) (create_dirs recursive : Bool)
    (h : ToolFactory.insideWorkspace workspace
      ( ToolFactory.resolveUnder workspace path) = false) :
    ToolFactory.read_file fs workspace path
      = ToolFactory.ToolResult.err ToolFactory.accessDenied ∧
    ( ToolFactory.write_file fs workspace path content create_dirs).1
      = ToolFactory.ToolResult.err ToolFactory.accessDenied ∧
    ( ToolFactory.write_file fs workspace path content create_dirs).2 = fs ∧
    ToolFactory.list_directory fs workspace path recursive pattern
      = ToolFactory.ToolResult.err ToolFactory.accessDenied := by
  refine ⟨?_, ?_, ?_, ?_⟩ <;>
    simp [ ToolFactory.read_file, ToolFactory.write_file,
      ToolFactory.list_directory, h]

/-- Witness for `c8_sandbox_enforcement`: reading `"../../etc/passwd"`
against workspace root `/workspace` is denied. -/
theorem c8_sandbox_enforcement_witness :
    ToolFactory.insideWorkspace ["workspace".data]
      ( ToolFactory.resolveUnder ["workspace".data] "../../etc/passwd".data)
      = false ∧
    ToolFactory.read_file [] ["workspace".data] "../../etc/passwd".data
      = ToolFactory.ToolResult.err ToolFactory.accessDenied :=
  ⟨by decide,
   (c8_sandbox_enforcement [] ["workspace".data] "../../etc/passwd".data
     [] "*".data true false (by decide)).1⟩
